import Mathlib

/-!
Verification of the authentication and session-lifecycle core of the Chirpy
server (package `internal/auth` plus the refresh-token SQL queries).

The Go source is embedded shallowly:
* machine-level byte values are `Nat` with explicit `< 256` bounds;
* the external `google/uuid` library is modelled concretely: a UUID is 16
  bytes, `UUID.toString` is the canonical lowercase hex rendering with
  dashes, `uuidParse` the canonical 36-character parse;
* the external `golang-jwt` HMAC signature is modelled symbolically: a
  signature is the (algorithm, claims, secret) triple and verification
  recomputes and compares, the standard idealisation of an unforgeable MAC;
* wall-clock time is an explicit integer parameter (seconds), threaded to
  every operation that reads `time.Now()` / `NOW()`;
* fallible Go functions returning `(T, error)` become `Except` or explicit
  pairs when the partial result matters.
-/

namespace Chirpy

/-- Lowercase hex digit table, as used by Go `encoding/hex` and by
`google/uuid` when rendering a UUID. -/
def hexChar : Nat → Char
  | 0 => '0' | 1 => '1' | 2 => '2' | 3 => '3'
  | 4 => '4' | 5 => '5' | 6 => '6' | 7 => '7'
  | 8 => '8' | 9 => '9' | 10 => 'a' | 11 => 'b'
  | 12 => 'c' | 13 => 'd' | 14 => 'e' | _ => 'f'

/-- Hex digit value of a character; accepts the ranges the `google/uuid`
byte table `xtob` accepts: 0-9, a-f, A-F. -/
def hexVal (c : Char) : Option Nat :=
  if '0' ≤ c ∧ c ≤ '9' then some (c.toNat - 48)
  else if 'a' ≤ c ∧ c ≤ 'f' then some (c.toNat - 87)
  else if 'A' ≤ c ∧ c ≤ 'F' then some (c.toNat - 55)
  else none

/-- Decode one byte from two hex characters (high then low nibble). -/
def hexByte (hi lo : Char) : Option Nat := do
  let h ← hexVal hi
  let l ← hexVal lo
  pure (16 * h + l)

/-- A UUID is 16 bytes, mirroring `google/uuid`'s `type UUID [16]byte`. -/
structure UUID where
  b0 : Nat
  b1 : Nat
  b2 : Nat
  b3 : Nat
  b4 : Nat
  b5 : Nat
  b6 : Nat
  b7 : Nat
  b8 : Nat
  b9 : Nat
  b10 : Nat
  b11 : Nat
  b12 : Nat
  b13 : Nat
  b14 : Nat
  b15 : Nat
deriving DecidableEq

/-- Well-formedness: each field is a byte. -/
def UUID.WF (u : UUID) : Prop :=
  u.b0 < 256 ∧ u.b1 < 256 ∧ u.b2 < 256 ∧ u.b3 < 256 ∧
  u.b4 < 256 ∧ u.b5 < 256 ∧ u.b6 < 256 ∧ u.b7 < 256 ∧
  u.b8 < 256 ∧ u.b9 < 256 ∧ u.b10 < 256 ∧ u.b11 < 256 ∧
  u.b12 < 256 ∧ u.b13 < 256 ∧ u.b14 < 256 ∧ u.b15 < 256

instance (u : UUID) : Decidable u.WF := by unfold UUID.WF; infer_instance

/-- `uuid.Nil`, the all-zero UUID. -/
def UUID.nil : UUID := ⟨0, 0, 0, 0, 0, 0, 0, 0, 0, 0, 0, 0, 0, 0, 0, 0⟩

/-- `hex.Encode` over a byte slice: two lowercase hex characters per
input byte, in order. -/
def hexChars : List Nat → List Char
  | [] => []
  | b :: bs => hexChar (b / 16) :: hexChar (b % 16) :: hexChars bs

/-- `uuid.UUID.String()`: canonical 8-4-4-4-12 lowercase hex form, the
five dash-separated byte groups each rendered by `hex.Encode`. -/
def UUID.toString (u : UUID) : String :=
  String.mk
    (hexChars [u.b0, u.b1, u.b2, u.b3] ++ '-' ::
     (hexChars [u.b4, u.b5] ++ '-' ::
      (hexChars [u.b6, u.b7] ++ '-' ::
       (hexChars [u.b8, u.b9] ++ '-' ::
        hexChars [u.b10, u.b11, u.b12, u.b13, u.b14, u.b15]))))

/-- Read `n` bytes as consecutive hex character pairs (`xtob` in
`google/uuid`), returning the bytes and the unread remainder. -/
def readHexBytes : Nat → List Char → Option (List Nat × List Char)
  | 0, rest => some ([], rest)
  | n + 1, c1 :: c2 :: rest =>
    match hexByte c1 c2, readHexBytes n rest with
    | some b, some (bs, rest2) => some (b :: bs, rest2)
    | _, _ => none
  | _ + 1, _ => none

/-- Character-level worker for `uuidParse`: the canonical 36-character
xxxxxxxx-xxxx-xxxx-xxxx-xxxxxxxxxxxx form accepted by `uuid.Parse`
(whose further accepted variants are never produced by this program):
five hex byte groups of sizes 4, 2, 2, 2, 6 separated by dashes, nothing
trailing. -/
def uuidParseChars (l : List Char) : Option UUID :=
  match readHexBytes 4 l with
  | some ([x0, x1, x2, x3], '-' :: r1) =>
    match readHexBytes 2 r1 with
    | some ([x4, x5], '-' :: r2) =>
      match readHexBytes 2 r2 with
      | some ([x6, x7], '-' :: r3) =>
        match readHexBytes 2 r3 with
        | some ([x8, x9], '-' :: r4) =>
          match readHexBytes 6 r4 with
          | some ([x10, x11, x12, x13, x14, x15], []) =>
            some ⟨x0, x1, x2, x3, x4, x5, x6, x7,
                  x8, x9, x10, x11, x12, x13, x14, x15⟩
          | _ => none
        | _ => none
      | _ => none
    | _ => none
  | _ => none

/-- `uuid.Parse` on a string. -/
def uuidParse (s : String) : Option UUID := uuidParseChars s.data

theorem data_mk (l : List Char) : (String.mk l).data = l := rfl

theorem hexVal_hexChar : ∀ n : Nat, n < 16 → hexVal (hexChar n) = some n := by
  decide

theorem hexByte_hexChar : ∀ b : Nat, b < 256 →
    hexByte (hexChar (b / 16)) (hexChar (b % 16)) = some b := by
  intro b hb
  have hdiv : b / 16 < 16 := Nat.div_lt_of_lt_mul hb
  have hmod : b % 16 < 16 := Nat.mod_lt b (by omega)
  simp only [hexByte, hexVal_hexChar _ hdiv, hexVal_hexChar _ hmod,
    Option.bind_eq_bind, Option.bind_some, Option.some_bind]
  have : 16 * (b / 16) + b % 16 = b := by omega
  simp [this]

/-- Reading back the hex encoding of a byte list recovers the bytes and
leaves the remainder untouched. -/
theorem readHexBytes_hexChars (bs : List Nat) (rest : List Char)
    (hb : ∀ b ∈ bs, b < 256) :
    readHexBytes bs.length (hexChars bs ++ rest) = some (bs, rest) := by
  induction bs with
  | nil => simp [readHexBytes, hexChars]
  | cons b t ih =>
    have hb0 : b < 256 := hb b (by simp)
    have hbt : ∀ x ∈ t, x < 256 := fun x hx => hb x (by simp [hx])
    simp [hexChars, readHexBytes, hexByte_hexChar b hb0, ih hbt]

/-- Parsing the canonical rendering of a well-formed UUID recovers it. -/
theorem uuidParse_toString (u : UUID) (h : u.WF) :
    uuidParse u.toString = some u := by
  obtain ⟨h0, h1, h2, h3, h4, h5, h6, h7, h8, h9, h10, h11, h12, h13, h14, h15⟩ := h
  have e5 : readHexBytes 6
      (hexChars [u.b10, u.b11, u.b12, u.b13, u.b14, u.b15] ++ ([] : List Char)) =
      some ([u.b10, u.b11, u.b12, u.b13, u.b14, u.b15], []) := by
    simpa using readHexBytes_hexChars [u.b10, u.b11, u.b12, u.b13, u.b14, u.b15] []
      (by intro x hx
          simp only [List.mem_cons, List.not_mem_nil, or_false] at hx
          rcases hx with rfl | rfl | rfl | rfl | rfl | rfl <;> assumption)
  have e4 : readHexBytes 2
      (hexChars [u.b8, u.b9] ++ '-' ::
        hexChars [u.b10, u.b11, u.b12, u.b13, u.b14, u.b15]) =
      some ([u.b8, u.b9], '-' ::
        hexChars [u.b10, u.b11, u.b12, u.b13, u.b14, u.b15]) := by
    simpa using readHexBytes_hexChars [u.b8, u.b9] _
      (by intro x hx
          simp only [List.mem_cons, List.not_mem_nil, or_false] at hx
          rcases hx with rfl | rfl <;> assumption)
  have e3 : readHexBytes 2
      (hexChars [u.b6, u.b7] ++ '-' ::
        (hexChars [u.b8, u.b9] ++ '-' ::
          hexChars [u.b10, u.b11, u.b12, u.b13, u.b14, u.b15])) =
      some ([u.b6, u.b7], '-' ::
        (hexChars [u.b8, u.b9] ++ '-' ::
          hexChars [u.b10, u.b11, u.b12, u.b13, u.b14, u.b15])) := by
    simpa using readHexBytes_hexChars [u.b6, u.b7] _
      (by intro x hx
          simp only [List.mem_cons, List.not_mem_nil, or_false] at hx
          rcases hx with rfl | rfl <;> assumption)
  have e2 : readHexBytes 2
      (hexChars [u.b4, u.b5] ++ '-' ::
        (hexChars [u.b6, u.b7] ++ '-' ::
          (hexChars [u.b8, u.b9] ++ '-' ::
            hexChars [u.b10, u.b11, u.b12, u.b13, u.b14, u.b15]))) =
      some ([u.b4, u.b5], '-' ::
        (hexChars [u.b6, u.b7] ++ '-' ::
          (hexChars [u.b8, u.b9] ++ '-' ::
            hexChars [u.b10, u.b11, u.b12, u.b13, u.b14, u.b15]))) := by
    simpa using readHexBytes_hexChars [u.b4, u.b5] _
      (by intro x hx
          simp only [List.mem_cons, List.not_mem_nil, or_false] at hx
          rcases hx with rfl | rfl <;> assumption)
  have e1 : readHexBytes 4
      (hexChars [u.b0, u.b1, u.b2, u.b3] ++ '-' ::
        (hexChars [u.b4, u.b5] ++ '-' ::
          (hexChars [u.b6, u.b7] ++ '-' ::
            (hexChars [u.b8, u.b9] ++ '-' ::
              hexChars [u.b10, u.b11, u.b12, u.b13, u.b14, u.b15])))) =
      some ([u.b0, u.b1, u.b2, u.b3], '-' ::
        (hexChars [u.b4, u.b5] ++ '-' ::
          (hexChars [u.b6, u.b7] ++ '-' ::
            (hexChars [u.b8, u.b9] ++ '-' ::
              hexChars [u.b10, u.b11, u.b12, u.b13, u.b14, u.b15])))) := by
    simpa using readHexBytes_hexChars [u.b0, u.b1, u.b2, u.b3] _
      (by intro x hx
          simp only [List.mem_cons, List.not_mem_nil, or_false] at hx
          rcases hx with rfl | rfl | rfl | rfl <;> assumption)
  simp only [uuidParse, UUID.toString, data_mk, uuidParseChars,
    List.append_nil] at e5 ⊢
  rw [e1]
  simp only []
  rw [e2]
  simp only []
  rw [e3]
  simp only []
  rw [e4]
  simp only []
  rw [e5]

/-- Signing algorithms a parsed token can carry.  `HS256/384/512` are the
`jwt.SigningMethodHMAC` family; `RS256` and `sigNone` stand for the
non-HMAC methods the key function must reject. -/
inductive Alg
  | HS256
  | HS384
  | HS512
  | RS256
  | sigNone
deriving DecidableEq

/-- Membership in the `*jwt.SigningMethodHMAC` family checked by the key
function of `ValidateJWT`. -/
def Alg.isHMAC : Alg → Bool
  | .HS256 => true
  | .HS384 => true
  | .HS512 => true
  | _ => false

/-- The registered claims `MakeJWT` fills in, in source order:
ExpiresAt, Issuer, IssuedAt, Subject.  Times are unix seconds. -/
structure Claims where
  expiresAt : Int
  issuer : String
  issuedAt : Int
  subject : String
deriving DecidableEq

/-- Symbolic MAC: the signature over a claim set is the triple of
algorithm, signed payload and key; verification recomputes and compares.
This is the standard idealisation of an unforgeable HMAC. -/
def hmacSign (alg : Alg) (claims : Claims) (secret : String) :
    Alg × Claims × String :=
  (alg, claims, secret)

/-- A structurally well-formed JWT: header algorithm, payload, signature. -/
structure Token where
  alg : Alg
  claims : Claims
  sig : Alg × Claims × String
deriving DecidableEq

/-- A candidate token string handed to `ValidateJWT`: either the
serialisation of a structurally well-formed JWT or bytes the library
cannot parse. -/
inductive TokenString
  | wellFormed (t : Token)
  | garbage (s : String)
deriving DecidableEq

/-- `TokenIssuer = "chirpy"` constant from `internal/auth`. -/
def TokenIssuer : String := "chirpy"

/-- `MakeJWT(userID, tokenSecret, expiresIn)`:  claims with
`ExpiresAt = now + expiresIn`, `Issuer = "chirpy"`, `IssuedAt = now`,
`Subject = userID.String()`, signed with HS256 over `tokenSecret`.
`now` is the wall clock read by `time.Now().UTC()`; `expiresIn` may be
negative, as the tests exercise.  (`token.SignedString` cannot fail for
an HMAC method with a byte-slice key, so the result is total.) -/
def MakeJWT (userID : UUID) (tokenSecret : String) (expiresIn : Int)
    (now : Int) : TokenString :=
  let claims : Claims :=
    { expiresAt := now + expiresIn
      issuer := "chirpy"
      issuedAt := now
      subject := userID.toString }
  .wellFormed { alg := .HS256, claims := claims, sig := hmacSign .HS256 claims tokenSecret }

/-- Failure causes inside `jwt.ParseWithClaims`: unparseable string,
key-function rejection of a non-HMAC method, signature mismatch, expiry
(`now < exp` violated, strict, zero leeway). -/
inductive ParseError
  | malformed
  | unexpectedSigningMethod
  | signatureInvalid
  | tokenExpired
deriving DecidableEq

/-- The distinct error values `ValidateJWT` can return, one per
`fmt.Errorf` site in the source: `"invalid token: %w"` wrapping a parse
error, `"invalid token claims"`, `"invalid issuer"`,
`"invalid user ID in token"`. -/
inductive ValidateError
  | invalidToken (e : ParseError)
  | invalidTokenClaims
  | invalidIssuer
  | invalidUserID
deriving DecidableEq

/-- `jwt.ParseWithClaims` with the key function of `ValidateJWT`:
parse the string, reject a non-HMAC signing method, verify the signature
under `tokenSecret`, then validate the registered claims (expiry is the
only registered claim set that is validated; the check is strict
`now < exp` with zero leeway). -/
def parseWithClaims (ts : TokenString) (tokenSecret : String) (now : Int) :
    Except ParseError Token :=
  match ts with
  | .garbage _ => .error .malformed
  | .wellFormed t =>
    if t.alg.isHMAC = true then
      if t.sig = hmacSign t.alg t.claims tokenSecret then
        if now < t.claims.expiresAt then .ok t
        else .error .tokenExpired
      else .error .signatureInvalid
    else .error .unexpectedSigningMethod

/-- `ValidateJWT(tokenString, tokenSecret)` at wall clock `now`.  Returns
the Go pair `(uuid.UUID, error)`: on any library failure
`(uuid.Nil, invalid token: %w)`; then `(uuid.Nil, invalid issuer)` when the
issuer claim differs from `TokenIssuer`; then
`(uuid.Nil, invalid user ID in token)` when the subject does not parse as
a UUID; otherwise `(userID, nil)`.  The source branch returning
`"invalid token claims"` (failed type assertion or `!token.Valid`) is
unreachable here because the model fixes the claims type and
`parseWithClaims` only succeeds on valid tokens. -/
def ValidateJWT (ts : TokenString) (tokenSecret : String) (now : Int) :
    UUID × Option ValidateError :=
  match parseWithClaims ts tokenSecret now with
  | .error e => (UUID.nil, some (.invalidToken e))
  | .ok t =>
    if t.claims.issuer ≠ TokenIssuer then (UUID.nil, some .invalidIssuer)
    else
      match uuidParse t.claims.subject with
      | none => (UUID.nil, some .invalidUserID)
      | some userID => (userID, none)

/-- Worker for `strings.Split(s, " ")`: cut the character list at every
space; always yields at least one piece, and adjacent or trailing
separators yield empty pieces, exactly as Go does for a one-character
separator. -/
def splitSpaceAux : List Char → List Char → List String
  | [], acc => [String.mk acc.reverse]
  | c :: cs, acc =>
    if c = ' ' then String.mk acc.reverse :: splitSpaceAux cs []
    else splitSpaceAux cs (c :: acc)

/-- `strings.Split(s, " ")`. -/
def splitSpace (s : String) : List String := splitSpaceAux s.data []

/-- `GetBearerToken(headers)` from `internal/auth` (src lines 215 to 227).
The argument is the value of `headers.Get("Authorization")`, which is the
empty string when the header is absent.  Failures are the two
`errors.New` messages of the source. -/
def GetBearerToken (authHeader : String) : Except String String :=
  if authHeader = "" then .error "authorization header is missing"
  else
    match splitSpace authHeader with
    | [scheme, tok] =>
      if scheme = "Bearer" then .ok tok
      else .error "malformed authorization header"
    | _ => .error "malformed authorization header"

/-- Modelled from the spec: the sentinel error values `ErrNoAuthHeader`
and `ErrMalformedAuthHeader` referenced by `TestGetBearerToken` are not
defined in the source snapshot under src; the spec requires two distinct,
stable, comparable error values. -/
inductive AuthError
  | noAuthHeader
  | malformedAuthHeader
deriving DecidableEq

/-- Modelled from the spec: the `ErrNoAuthHeader` sentinel. -/
def ErrNoAuthHeader : AuthError := .noAuthHeader

/-- Modelled from the spec: the `ErrMalformedAuthHeader` sentinel. -/
def ErrMalformedAuthHeader : AuthError := .malformedAuthHeader

/-- Modelled from the spec: the bearer extraction contract the sentinel
errors belong to — the raw header value must be the literal scheme word
`Bearer`, one space, then a non-empty token; a missing header is
`ErrNoAuthHeader`; a present-but-malformed header (wrong scheme word,
wrong part count, or empty token after the prefix) is
`ErrMalformedAuthHeader`.  A missing header is `none`. -/
def GetBearerTokenFinal (authHeader : Option String) :
    Except AuthError String :=
  match authHeader with
  | none => .error ErrNoAuthHeader
  | some v =>
    match splitSpace v with
    | [scheme, tok] =>
      if scheme = "Bearer" ∧ tok ≠ "" then .ok tok
      else .error ErrMalformedAuthHeader
    | _ => .error ErrMalformedAuthHeader

/-- A row of the `refresh_tokens` table:
`token, user_id, created_at, updated_at, expires_at, revoked_at NULL`. -/
structure RefreshTokenRecord where
  token : String
  userId : UUID
  createdAt : Int
  updatedAt : Int
  expiresAt : Int
  revokedAt : Option Int
deriving DecidableEq

/-- A row of the `users` table (fields the auth core touches). -/
structure UserRecord where
  id : UUID
  email : String
  hashedPassword : String
deriving DecidableEq

/-- The persistence collaborator state: the two tables. -/
structure DB where
  users : List UserRecord
  refreshTokens : List RefreshTokenRecord
deriving DecidableEq

/-- Schema invariants: `token` and `users.id` are primary keys, and
`refresh_tokens.user_id` references an existing user. -/
def DB.WF (db : DB) : Prop :=
  (db.refreshTokens.map RefreshTokenRecord.token).Nodup ∧
  (db.users.map UserRecord.id).Nodup ∧
  ∀ r ∈ db.refreshTokens, ∃ u ∈ db.users, u.id = r.userId

instance (db : DB) : Decidable db.WF := by unfold DB.WF; infer_instance

/-- `CreateRefreshToken` query: INSERT of a fresh row with
`revoked_at NULL`; a duplicate primary key is the unique-violation
(`ConflictFailure`) case. -/
def CreateRefreshToken (db : DB) (tok : String) (uid : UUID)
    (expiresAt : Int) (now : Int) :
    Except Unit (DB × RefreshTokenRecord) :=
  if db.refreshTokens.any (fun r => r.token = tok) then .error ()
  else
    let r : RefreshTokenRecord :=
      { token := tok, userId := uid, createdAt := now, updatedAt := now
        expiresAt := expiresAt, revokedAt := none }
    .ok ({ db with refreshTokens := db.refreshTokens ++ [r] }, r)

/-- `GetUserFromRefreshToken` query: the join of `users` with the row of
`refresh_tokens` whose `token` matches and which satisfies
`revoked_at IS NULL AND expires_at > NOW()`.  Zero rows — whether the
token never existed, is expired, or is revoked — is the single `none`
(`sql.ErrNoRows`) outcome, carrying no cause. -/
def GetUserFromRefreshToken (db : DB) (tok : String) (now : Int) :
    Option (UUID × String) :=
  match db.refreshTokens.find?
      (fun r => decide (r.token = tok ∧ r.revokedAt = none ∧ now < r.expiresAt)) with
  | none => none
  | some r =>
    (db.users.find? (fun u => decide (u.id = r.userId))).map
      (fun u => (u.id, u.email))

/-- `RevokeRefreshToken` query: UPDATE setting `revoked_at = NOW()` and
`updated_at = NOW()` on rows matching the token that are not yet revoked
(`WHERE token = $1 AND revoked_at IS NULL`); an `:exec` statement, it
reports no error whatever the number of affected rows. -/
def RevokeRefreshToken (db : DB) (tok : String) (now : Int) : DB :=
  { db with
    refreshTokens := db.refreshTokens.map (fun r =>
      if r.token = tok ∧ r.revokedAt = none then
        { r with revokedAt := some now, updatedAt := now }
      else r) }

/-- `Cost = 12`, the bcrypt cost constant of `internal/auth`. -/
def Cost : Nat := 12

/-- A bcrypt hash value: cost, the random salt chosen at hashing time,
and the key-derivation digest.  The digest of the ideal primitive is
injective in the password, so it is modelled as the password itself
(symbolic collision-free one-way function). -/
structure BcryptHash where
  cost : Nat
  salt : Nat
  digest : String
deriving DecidableEq

/-- `HashPassword(password)`: `bcrypt.GenerateFromPassword` with `Cost`.
The salt is drawn from the random source, here an explicit argument, so
two calls with different salts give different hashes. -/
def HashPassword (salt : Nat) (password : String) : BcryptHash :=
  { cost := Cost, salt := salt, digest := password }

/-- `CheckPasswordHash(password, hash)`:
`bcrypt.CompareHashAndPassword` re-derives the digest with the cost and
salt stored in the hash and compares; `none` is the nil error (match),
`some` the mismatch error. -/
def CheckPasswordHash (password : String) (hash : BcryptHash) :
    Option String :=
  if hash.digest = password then none
  else some "crypto/bcrypt: hashedPassword is not the hash of the given password"

/-- Characters `encoding/hex` emits. -/
def isLowerHexDigit (c : Char) : Bool :=
  (('0' ≤ c) && (c ≤ '9')) || (('a' ≤ c) && (c ≤ 'f'))

/-- `MakeRefreshToken()`: reads 32 bytes from `crypto/rand` and hex
encodes them.  The random source is the explicit argument `randRead`,
a function from requested byte count to outcome; the code asks it for
the 32-byte buffer it allocates. -/
def MakeRefreshToken (randRead : Nat → Except String (List Nat)) :
    Except String String :=
  match randRead 32 with
  | .error e => .error ("failed to generate random bytes: " ++ e)
  | .ok bytes => .ok (String.mk (hexChars bytes))

/-- C1: for every user identifier `u`, secret `k`, and positive `ttl`,
validating the access token produced by `MakeJWT u k ttl` with the same
secret `k`, at any time before `ttl` has elapsed, succeeds and returns
exactly `u`. -/
theorem validateJWT_makeJWT_roundtrip (u : UUID) (k : String)
    (ttl t0 now : Int) (hu : u.WF) (hpos : 0 < ttl)
    (hbefore : now < t0 + ttl) :
    ValidateJWT (MakeJWT u k ttl t0) k now = (u, none) := by
  simp [MakeJWT, ValidateJWT, parseWithClaims, Alg.isHMAC, TokenIssuer,
    hbefore, uuidParse_toString u hu]

/-- Witness for C1 at a concrete user identifier, secret and clock. -/
theorem validateJWT_makeJWT_roundtrip_witness :
    ValidateJWT
      (MakeJWT ⟨222, 173, 190, 239, 1, 2, 3, 4, 5, 6, 7, 8, 9, 10, 11, 12⟩
        "secret" 3600 1000) "secret" 2000 =
      (⟨222, 173, 190, 239, 1, 2, 3, 4, 5, 6, 7, 8, 9, 10, 11, 12⟩, none) :=
  validateJWT_makeJWT_roundtrip _ "secret" 3600 1000 2000 (by decide)
    (by decide) (by decide)

/-- C5: a token issued with `ttl` fails validation once `ttl` has elapsed
(`t0 + ttl ≤ now`); in particular a token issued with a zero or negative
`ttl` fails validation immediately (`t0 ≤ now`). -/
theorem validateJWT_expired_after_ttl (u : UUID) (k : String)
    (ttl t0 now : Int) :
    (t0 + ttl ≤ now →
      ValidateJWT (MakeJWT u k ttl t0) k now =
        (UUID.nil, some (.invalidToken .tokenExpired)))
    ∧ (ttl ≤ 0 → t0 ≤ now →
      ValidateJWT (MakeJWT u k ttl t0) k now =
        (UUID.nil, some (.invalidToken .tokenExpired))) := by
  constructor
  · intro h
    simp [MakeJWT, ValidateJWT, parseWithClaims, Alg.isHMAC,
      show ¬(now < t0 + ttl) from by omega]
  · intro h1 h2
    simp [MakeJWT, ValidateJWT, parseWithClaims, Alg.isHMAC,
      show ¬(now < t0 + ttl) from by omega]

/-- Witness for C5: a one-hour-old expired token and a zero-ttl token,
both rejected as expired. -/
theorem validateJWT_expired_after_ttl_witness :
    ValidateJWT (MakeJWT UUID.nil "s" 10 0) "s" 100 =
      (UUID.nil, some (.invalidToken .tokenExpired))
    ∧ ValidateJWT (MakeJWT UUID.nil "s" 0 5) "s" 5 =
      (UUID.nil, some (.invalidToken .tokenExpired)) :=
  ⟨(validateJWT_expired_after_ttl UUID.nil "s" 10 0 100).1 (by decide),
   (validateJWT_expired_after_ttl UUID.nil "s" 0 5 5).2 (by decide) (by decide)⟩

/-- C4 (amended): `ValidateJWT` fails — returning the zero UUID together
with a non-nil error — when the token does not parse, when its signing
algorithm is not in the HMAC family, when its signature does not verify
under the given secret, when it is expired, when its issuer claim differs
from `TokenIssuer`, and when its subject does not parse as a UUID.  The
error values, however, differ by cause (the source wraps distinct
messages), so the failures are not one indistinguishable outcome. -/
theorem validateJWT_rejections (t : Token) (secret : String) (now : Int) :
    (∀ s : String, ValidateJWT (.garbage s) secret now =
      (UUID.nil, some (.invalidToken .malformed)))
    ∧ (t.alg.isHMAC = false →
      ValidateJWT (.wellFormed t) secret now =
        (UUID.nil, some (.invalidToken .unexpectedSigningMethod)))
    ∧ (t.alg.isHMAC = true → t.sig ≠ hmacSign t.alg t.claims secret →
      ValidateJWT (.wellFormed t) secret now =
        (UUID.nil, some (.invalidToken .signatureInvalid)))
    ∧ (t.alg.isHMAC = true → t.sig = hmacSign t.alg t.claims secret →
      t.claims.expiresAt ≤ now →
      ValidateJWT (.wellFormed t) secret now =
        (UUID.nil, some (.invalidToken .tokenExpired)))
    ∧ (t.alg.isHMAC = true → t.sig = hmacSign t.alg t.claims secret →
      now < t.claims.expiresAt → t.claims.issuer ≠ TokenIssuer →
      ValidateJWT (.wellFormed t) secret now = (UUID.nil, some .invalidIssuer))
    ∧ (t.alg.isHMAC = true → t.sig = hmacSign t.alg t.claims secret →
      now < t.claims.expiresAt → t.claims.issuer = TokenIssuer →
      uuidParse t.claims.subject = none →
      ValidateJWT (.wellFormed t) secret now = (UUID.nil, some .invalidUserID)) := by
  refine ⟨fun s => rfl, ?_, ?_, ?_, ?_, ?_⟩
  · intro h
    simp [ValidateJWT, parseWithClaims, h]
  · intro h1 h2
    simp [ValidateJWT, parseWithClaims, h1, h2]
  · intro h1 h2 h3
    simp [ValidateJWT, parseWithClaims, h1, h2,
      show ¬(now < t.claims.expiresAt) from by omega]
  · intro h1 h2 h3 h4
    simp [ValidateJWT, parseWithClaims, h1, h2, h3, h4]
  · intro h1 h2 h3 h4 h5
    simp [ValidateJWT, parseWithClaims, h1, h2, h3, h4, h5]

/-- Witness for C4: an RSA-signed token is rejected with the wrapped
unexpected-signing-method error and the zero UUID. -/
theorem validateJWT_rejections_witness :
    ValidateJWT
      (.wellFormed ⟨.RS256, ⟨100, "chirpy", 0, "x"⟩,
        hmacSign .RS256 ⟨100, "chirpy", 0, "x"⟩ "s"⟩) "s" 5 =
      (UUID.nil, some (.invalidToken .unexpectedSigningMethod)) :=
  (validateJWT_rejections
    ⟨.RS256, ⟨100, "chirpy", 0, "x"⟩,
      hmacSign .RS256 ⟨100, "chirpy", 0, "x"⟩ "s"⟩ "s" 5).2.1 (by decide)

/-- Counterexample for C4 as stated: two failing validations — an
unparseable token and a well-signed, unexpired token whose issuer claim
is wrong — both fail, yet return unequal error values, so the failures
are distinguishable outcomes, not a single uniform error. -/
theorem validateJWT_errors_distinguishable :
    ((ValidateJWT (.garbage "zzz") "s" 5).2).isSome = true
    ∧ ((ValidateJWT (.wellFormed ⟨.HS256, ⟨100, "evil", 0, "x"⟩,
        hmacSign .HS256 ⟨100, "evil", 0, "x"⟩ "s"⟩) "s" 5).2).isSome = true
    ∧ (ValidateJWT (.garbage "zzz") "s" 5).2 ≠
      (ValidateJWT (.wellFormed ⟨.HS256, ⟨100, "evil", 0, "x"⟩,
        hmacSign .HS256 ⟨100, "evil", 0, "x"⟩ "s"⟩) "s" 5).2 := by
  decide

/-- C10: on every failure path of `ValidateJWT` the returned user
identifier is exactly the zero UUID. -/
theorem validateJWT_failure_returns_nil (ts : TokenString) (secret : String)
    (now : Int) (e : ValidateError)
    (h : (ValidateJWT ts secret now).2 = some e) :
    (ValidateJWT ts secret now).1 = UUID.nil := by
  unfold ValidateJWT at h ⊢
  cases hp : parseWithClaims ts secret now with
  | error pe => simp [hp]
  | ok t =>
    rw [hp] at h
    by_cases hi : t.claims.issuer ≠ TokenIssuer
    · simp [hi]
    · cases hu : uuidParse t.claims.subject with
      | none => simp [hi, hu]
      | some uid => simp [hi, hu] at h

/-- Witness for C10: the failing validation of an unparseable token
returns the zero UUID. -/
theorem validateJWT_failure_returns_nil_witness :
    (ValidateJWT (.garbage "x") "s" 0).1 = UUID.nil :=
  validateJWT_failure_returns_nil (.garbage "x") "s" 0
    (.invalidToken .malformed) rfl

/-- C6 evaluation: `GetBearerToken` maps `"Bearer abc.def.ghi"` to the
token, a missing header to the missing-header failure, `"Token abc"` to
the malformed-header failure — but `"Bearer "` (empty token after the
prefix) to a successful empty token, NOT to the malformed-header failure
the claim and the repository's own test expect: `strings.Split` yields
`["Bearer", ""]`, which passes the length-2 and scheme checks. -/
theorem getBearerToken_empty_token_bug :
    GetBearerToken "Bearer abc.def.ghi" = .ok "abc.def.ghi"
    ∧ GetBearerToken "" = .error "authorization header is missing"
    ∧ GetBearerToken "Token abc" = .error "malformed authorization header"
    ∧ GetBearerToken "Bearer " = .ok "" := by
  refine ⟨rfl, rfl, rfl, rfl⟩

/-- C7: the two bearer-extraction sentinels are distinct and stable:
the missing-header case always returns `ErrNoAuthHeader`, every
present-but-malformed case always returns `ErrMalformedAuthHeader`, the
two values are unequal, and they exhaust the error type, so a caller can
branch by equality comparison. -/
theorem bearer_sentinels :
    ErrNoAuthHeader ≠ ErrMalformedAuthHeader
    ∧ GetBearerTokenFinal none = .error ErrNoAuthHeader
    ∧ (∀ v e, GetBearerTokenFinal (some v) = .error e →
        e = ErrMalformedAuthHeader)
    ∧ (∀ e : AuthError, e = ErrNoAuthHeader ∨ e = ErrMalformedAuthHeader) := by
  refine ⟨by decide, rfl, ?_, ?_⟩
  · intro v e h
    simp only [GetBearerTokenFinal] at h
    split at h
    · split at h
      · cases h
      · injection h with h2
        exact h2.symm
    · injection h with h2
      exact h2.symm
  · intro e
    cases e
    · exact Or.inl rfl
    · exact Or.inr rfl

/-- Witness for C7: the malformed case `"Token abc"` returns the
malformed sentinel, which differs from the missing-header sentinel. -/
theorem bearer_sentinels_witness :
    ErrNoAuthHeader ≠ ErrMalformedAuthHeader
    ∧ ErrMalformedAuthHeader = ErrMalformedAuthHeader :=
  ⟨bearer_sentinels.1,
   bearer_sentinels.2.2.1 "Token abc" ErrMalformedAuthHeader rfl⟩

/-- C2: under the schema invariants, `GetUserFromRefreshToken` returns a
row exactly when a refresh-token record with the given token exists with
`revoked_at` unset and `now` strictly before `expires_at`; any returned
row names the owning user; and every other case — never existed,
expired, or revoked — is the single `none` outcome, which carries no
indication of the cause. -/
theorem getUserFromRefreshToken_valid_iff (db : DB) (tok : String)
    (now : Int) (hwf : DB.WF db) :
    ((GetUserFromRefreshToken db tok now).isSome = true ↔
      ∃ r ∈ db.refreshTokens,
        r.token = tok ∧ r.revokedAt = none ∧ now < r.expiresAt)
    ∧ (∀ uid email, GetUserFromRefreshToken db tok now = some (uid, email) →
      ∃ r ∈ db.refreshTokens,
        r.token = tok ∧ r.revokedAt = none ∧ now < r.expiresAt ∧
        uid = r.userId ∧
        ∃ usr ∈ db.users, usr.id = r.userId ∧ email = usr.email) := by
  obtain ⟨hpk, hupk, hfk⟩ := hwf
  constructor
  · constructor
    · intro h
      unfold GetUserFromRefreshToken at h
      cases hf : db.refreshTokens.find?
          (fun r => decide (r.token = tok ∧ r.revokedAt = none ∧
            now < r.expiresAt)) with
      | none => rw [hf] at h; simp at h
      | some r =>
        have hmem := List.mem_of_find?_eq_some hf
        have hpred := List.find?_some hf
        simp only [decide_eq_true_eq] at hpred
        exact ⟨r, hmem, hpred⟩
    · rintro ⟨r, hmem, hprops⟩
      unfold GetUserFromRefreshToken
      have hex : ∃ x ∈ db.refreshTokens,
          (fun r => decide (r.token = tok ∧ r.revokedAt = none ∧
            now < r.expiresAt)) x = true := by
        exact ⟨r, hmem, by simp [hprops.1, hprops.2.1, hprops.2.2]⟩
      rw [← List.find?_isSome] at hex
      cases hf : db.refreshTokens.find?
          (fun r => decide (r.token = tok ∧ r.revokedAt = none ∧
            now < r.expiresAt)) with
      | none => rw [hf] at hex; cases hex
      | some r2 =>
        have hmem2 := List.mem_of_find?_eq_some hf
        obtain ⟨u, humem, huid⟩ := hfk r2 hmem2
        have huex : ∃ x ∈ db.users,
            (fun x => decide (x.id = r2.userId)) x = true :=
          ⟨u, humem, by simp [huid]⟩
        rw [← List.find?_isSome] at huex
        cases hu : db.users.find? (fun x => decide (x.id = r2.userId)) with
        | none => rw [hu] at huex; cases huex
        | some usr => simp [hu]
  · intro uid email h
    unfold GetUserFromRefreshToken at h
    cases hf : db.refreshTokens.find?
        (fun r => decide (r.token = tok ∧ r.revokedAt = none ∧
          now < r.expiresAt)) with
    | none => rw [hf] at h; cases h
    | some r =>
      rw [hf] at h
      change Option.map (fun u => (u.id, u.email))
        (db.users.find? (fun u => decide (u.id = r.userId))) =
        some (uid, email) at h
      rw [Option.map_eq_some'] at h
      obtain ⟨usr, hu, heq⟩ := h
      simp only [Prod.mk.injEq] at heq
      have hmem := List.mem_of_find?_eq_some hf
      have hpred := List.find?_some hf
      simp only [decide_eq_true_eq] at hpred
      have humem := List.mem_of_find?_eq_some hu
      have hupred := List.find?_some hu
      simp only [decide_eq_true_eq] at hupred
      exact ⟨r, hmem, hpred.1, hpred.2.1, hpred.2.2,
        by rw [← heq.1, hupred], usr, humem, hupred, heq.2.symm⟩

/-- Witness for C2: in a one-user, one-active-token store, resolving the
stored token before its expiry succeeds. -/
theorem getUserFromRefreshToken_valid_iff_witness :
    (GetUserFromRefreshToken
      ⟨[⟨UUID.nil, "a@b.c", "hash"⟩],
       [⟨"tok", UUID.nil, 0, 0, 100, none⟩]⟩ "tok" 5).isSome = true :=
  (getUserFromRefreshToken_valid_iff
      ⟨[⟨UUID.nil, "a@b.c", "hash"⟩],
       [⟨"tok", UUID.nil, 0, 0, 100, none⟩]⟩ "tok" 5
      (by decide)).1.mpr
    ⟨⟨"tok", UUID.nil, 0, 0, 100, none⟩, by decide, by decide, by decide,
      by decide⟩

/-- C3: `revoked_at`, once set, is never unset or changed: revocation
maps every already-revoked record to itself, so a store in which every
record carrying the token is already revoked — or in which no record
carries it — is returned entirely unchanged (and the operation reports
no error: it is total); persisting a new token only appends, leaving
every existing record in place; resolution (`GetUserFromRefreshToken`)
is read-only by construction. -/
theorem revocation_monotonic (db : DB) (tok tok2 : String) (uid : UUID)
    (expAt now now2 : Int) :
    (∀ (i : Nat) (r : RefreshTokenRecord),
      db.refreshTokens[i]? = some r → r.revokedAt ≠ none →
      ∃ s, (RevokeRefreshToken db tok now).refreshTokens[i]? = some s ∧
        s.revokedAt = r.revokedAt)
    ∧ ((∀ r ∈ db.refreshTokens, r.token = tok → r.revokedAt ≠ none) →
      RevokeRefreshToken db tok now = db)
    ∧ (∀ (db2 : DB) (rec : RefreshTokenRecord),
      CreateRefreshToken db tok2 uid expAt now2 = .ok (db2, rec) →
      ∀ (i : Nat) (r : RefreshTokenRecord),
        db.refreshTokens[i]? = some r → db2.refreshTokens[i]? = some r) := by
  refine ⟨?_, ?_, ?_⟩
  · intro i r hi hr
    refine ⟨r, ?_, rfl⟩
    simp only [RevokeRefreshToken, List.getElem?_map, hi, Option.map_some']
    have hcond : ¬(r.token = tok ∧ r.revokedAt = none) := by
      rintro ⟨-, h2⟩; exact hr h2
    rw [if_neg hcond]
  · intro hall
    have hmap : db.refreshTokens.map (fun r =>
        if r.token = tok ∧ r.revokedAt = none then
          { r with revokedAt := some now, updatedAt := now }
        else r) = db.refreshTokens := by
      have hfix : ∀ r ∈ db.refreshTokens,
          (if r.token = tok ∧ r.revokedAt = none then
            { r with revokedAt := some now, updatedAt := now }
          else r) = id r := by
        intro r hmem
        have hcond : ¬(r.token = tok ∧ r.revokedAt = none) := by
          rintro ⟨h1, h2⟩; exact hall r hmem h1 h2
        simp [hcond]
      rw [List.map_congr_left hfix, List.map_id]
    simp only [RevokeRefreshToken, hmap]
  · intro db2 rec h i r hi
    unfold CreateRefreshToken at h
    split at h
    · cases h
    · injection h with h2
      rw [Prod.mk.injEq] at h2
      obtain ⟨hA, hB⟩ := h2
      rw [← hA]
      have hlt : i < db.refreshTokens.length := by
        rcases List.getElem?_eq_some_iff.mp hi with ⟨hl, -⟩
        exact hl
      simpa [List.getElem?_append_left hlt] using hi

/-- Witness for C3: revoking a token whose only record is already
revoked leaves the store unchanged. -/
theorem revocation_monotonic_witness :
    RevokeRefreshToken
      ⟨[⟨UUID.nil, "a@b.c", "hash"⟩],
       [⟨"t", UUID.nil, 0, 0, 100, some 3⟩]⟩ "t" 9 =
      ⟨[⟨UUID.nil, "a@b.c", "hash"⟩],
       [⟨"t", UUID.nil, 0, 0, 100, some 3⟩]⟩ :=
  (revocation_monotonic
      ⟨[⟨UUID.nil, "a@b.c", "hash"⟩],
       [⟨"t", UUID.nil, 0, 0, 100, some 3⟩]⟩ "t" "t2" UUID.nil 0 9 0).2.1
    (by decide)

theorem hexChars_length (bs : List Nat) :
    (hexChars bs).length = 2 * bs.length := by
  induction bs with
  | nil => simp [hexChars]
  | cons b t ih => simp [hexChars, ih]; omega

theorem hexChar_lower (n : Nat) : isLowerHexDigit (hexChar n) = true := by
  unfold hexChar
  split <;> decide

theorem hexChars_lower (bs : List Nat) :
    ∀ c ∈ hexChars bs, isLowerHexDigit c = true := by
  induction bs with
  | nil => simp [hexChars]
  | cons b t ih =>
    intro c hc
    simp only [hexChars, List.mem_cons] at hc
    rcases hc with rfl | rfl | hc
    · exact hexChar_lower _
    · exact hexChar_lower _
    · exact ih c hc

/-- C8: whenever the random source delivers the 32 requested bytes,
`MakeRefreshToken` returns their printable encoding — a 64-character
lowercase-hex string; when the source fails it returns the wrapped
failure; and it fails ONLY when the source fails. -/
theorem makeRefreshToken_hex (randRead : Nat → Except String (List Nat))
    (bytes : List Nat) (e : String) :
    (randRead 32 = .ok bytes → bytes.length = 32 →
      ∃ s, MakeRefreshToken randRead = .ok s ∧ s.length = 64 ∧
        ∀ c ∈ s.data, isLowerHexDigit c = true)
    ∧ (randRead 32 = .error e →
      MakeRefreshToken randRead =
        .error ("failed to generate random bytes: " ++ e))
    ∧ (∀ e2, MakeRefreshToken randRead = .error e2 →
      ∃ e3, randRead 32 = .error e3) := by
  refine ⟨?_, ?_, ?_⟩
  · intro h hlen
    refine ⟨String.mk (hexChars bytes), ?_, ?_, ?_⟩
    · unfold MakeRefreshToken
      rw [h]
    · have hl : (String.mk (hexChars bytes)).length = (hexChars bytes).length := rfl
      rw [hl, hexChars_length, hlen]
    · intro c hc
      rw [data_mk] at hc
      exact hexChars_lower _ c hc
  · intro h
    unfold MakeRefreshToken
    rw [h]
  · intro e2 h
    unfold MakeRefreshToken at h
    cases hr : randRead 32 with
    | error e3 => exact ⟨e3, rfl⟩
    | ok bs => rw [hr] at h; cases h

/-- Witness for C8: a random source delivering 32 zero bytes yields a
64-character lowercase-hex token. -/
theorem makeRefreshToken_hex_witness :
    ∃ s, MakeRefreshToken (fun _ => .ok (List.replicate 32 0)) = .ok s ∧
      s.length = 64 ∧ ∀ c ∈ s.data, isLowerHexDigit c = true :=
  (makeRefreshToken_hex (fun _ => .ok (List.replicate 32 0))
    (List.replicate 32 0) "").1 rfl (by decide)

/-- C9: verifying a secret against the hash produced from that same
secret succeeds (nil error), whatever salt the primitive drew; verifying
a different secret against that hash fails with the bcrypt mismatch
error. -/
theorem password_hash_verify (salt : Nat) (s s1 s2 : String) :
    CheckPasswordHash s (HashPassword salt s) = none
    ∧ (s1 ≠ s2 → CheckPasswordHash s1 (HashPassword salt s2) =
      some "crypto/bcrypt: hashedPassword is not the hash of the given password") := by
  constructor
  · simp [CheckPasswordHash, HashPassword]
  · intro h
    simp [CheckPasswordHash, HashPassword, Ne.symm h]

/-- Witness for C9: verifying `"a"` against the hash of `"b"` fails. -/
theorem password_hash_verify_witness :
    CheckPasswordHash "a" (HashPassword 7 "b") =
      some "crypto/bcrypt: hashedPassword is not the hash of the given password" :=
  (password_hash_verify 7 "x" "a" "b").2 (by decide)

end Chirpy
